import Mathlib

/-!
Shallow embedding of the orchestration core of the AI video producer
repository: `scripts/execute_pipeline.py` (pipeline document manager and
stage runner), `scripts/video_merger.py` (media assembler) and
`scripts/comfyui_client.py` (job client completion protocol).

Conventions used throughout:
* Python dicts holding JSON entities become Lean structures; a key whose
  absence is observable is an `Option`, a key that every read defaults
  (for example `get("status", "pending")`) is a plain field, with the
  absent key modelled as the default value.
* External effects (running a generation command, extracting a frame,
  querying the backend) are abstracted into boolean oracles passed as
  function arguments; the functions under verification return, next to the
  updated data, the number of external generation commands they invoked.
* Wall-clock time in the completion protocol is discretised to whole
  seconds, and the unbounded `while True` loops take an explicit fuel
  argument; `WaitResult.outOfFuel` marks fuel exhaustion and corresponds
  to no behaviour of the source.
-/

namespace AVP

/-- A segment of a v3 scene (`execute_pipeline.py`). `status` models
`segment.get("status", "pending")`: an absent key behaves exactly like
`"pending"` at every read site, so it is stored already defaulted.
`output_keyframe` is `none` when the key is absent (the source tests it
for truthiness; empty paths do not occur in plans). Fields that no claim
observes (`motion_prompt`, per-segment settings) are omitted: they only
feed the generated command line, which is abstracted by the `ok` oracle. -/
structure Segment where
  id : String
  status : String
  output_video : String
  output_keyframe : Option String
deriving Repr, DecidableEq

/-- A scene of the pipeline document. `segments = none` models a scene
dict without a `"segments"` key (the version marker tested by
`_detect_version` via `"segments" in s`), while `some l` models a present
list `l`; `_compute_scene_status` reads `scene.get("segments", [])`,
i.e. `(segments.getD [])`. `status` models `scene.get("status", "pending")`,
the fallback used when the segment list is empty. -/
structure Scene where
  id : String
  segments : Option (List Segment)
  status : String
  output_video : String
deriving Repr, DecidableEq

/-- The pipeline document fields read by `_detect_version`
(`execute_pipeline.py` lines 75-96): the optional top-level `"version"`
string, the scene list, and whether a top-level `"first_keyframe"` key is
present. -/
structure Pipeline where
  version : Option String
  scenes : List Scene
  has_first_keyframe : Bool
deriving Repr, DecidableEq

/-- `PipelineExecutor._detect_version`:

    version = self.pipeline.get("version", "1.0")
    if version == "3.0" or any("segments" in s for s in scenes): return "3.0"
    if version == "2.0" or "first_keyframe" in self.pipeline: return "2.0"
    return "1.0"
-/
def detect_version (p : Pipeline) : String :=
  let version := p.version.getD "1.0"
  if version == "3.0" || p.scenes.any (fun s => s.segments.isSome) then "3.0"
  else if version == "2.0" || p.has_first_keyframe then "2.0"
  else "1.0"

/-- The if/elif chain of `PipelineExecutor._compute_scene_status` over
the extracted list `statuses` (lines 112-123), named separately so it can
be reasoned about independently of the surrounding scene. -/
def scene_status_of (statuses : List String) : String :=
  if statuses.all (fun s => s == "approved") then "approved"
  else if statuses.all (fun s => s == "generated" || s == "approved") then "generated"
  else if statuses.any (fun s => s == "failed") then "failed"
  else if statuses.any (fun s => s == "in_progress") then "in_progress"
  else "pending"

/-- `PipelineExecutor._compute_scene_status` (lines 98-123): derive a
scene status from its segment statuses; an empty or absent segment list
falls back to the stored scene status. -/
def compute_scene_status (scene : Scene) : String :=
  let segments := scene.segments.getD []
  if segments.isEmpty then scene.status
  else scene_status_of (segments.map (fun s => s.status))

/-- Rearrangement of `detect_version` stated by the amended claim C2:
the segment marker dominates unconditionally; with no marker, an explicit
`"3.0"` yields v3, an explicit `"2.0"` or a `first_keyframe` key yields
v2, and anything else is v1. This definition follows the amended claim's
words and is compared with `detect_version`, which follows the source. -/
def detect_version_amended (p : Pipeline) : String :=
  if p.scenes.any (fun s => s.segments.isSome) then "3.0"
  else if p.version.getD "1.0" == "3.0" then "3.0"
  else if p.version.getD "1.0" == "2.0" || p.has_first_keyframe then "2.0"
  else "1.0"

/-- A document with an explicit `version` of `"2.0"`, one scene without a
`segments` key, and no `first_keyframe` key. Claim C2 classifies it under
"anything else", hence v1; the source returns `"2.0"`. -/
def c2_doc : Pipeline :=
  { version := some "2.0"
    scenes := [{ id := "scene-01", segments := none, status := "pending",
                 output_video := "scene-01/merged.mp4" }]
    has_first_keyframe := false }

/-- A document with an explicit `version` of `"2.0"` whose only scene has
a `segments` key. Claim C8 demands that the explicit field win; the
source returns `"3.0"`. -/
def c8_doc : Pipeline :=
  { version := some "2.0"
    scenes := [{ id := "scene-01", segments := some [], status := "pending",
                 output_video := "scene-01/merged.mp4" }]
    has_first_keyframe := false }

/-- C2 (counterexample). `c2_doc` has no `segments` key under any scene
and no `first_keyframe` field, so the claim's residual clause demands
version v1; detection returns `"2.0"` because the explicit version field
`"2.0"` is honoured. -/
theorem C2_counterexample :
    (c2_doc.scenes.all fun s => s.segments.isNone) = true ∧
    c2_doc.has_first_keyframe = false ∧
    detect_version c2_doc = "2.0" ∧ detect_version c2_doc ≠ "1.0" := by
  decide

/-- C2 (amended): version detection returns v3 whenever any scene entry
carries a `segments` key, regardless of the top-level version field; with
no such marker it returns v3 exactly when the version field is `"3.0"`,
else v2 exactly when the version field is `"2.0"` or a `first_keyframe`
field is present, else v1. -/
theorem C2_version_detection (p : Pipeline) :
    detect_version p = detect_version_amended p := by
  unfold detect_version detect_version_amended
  cases hseg : p.scenes.any (fun s => s.segments.isSome) <;>
    cases hv3 : p.version.getD "1.0" == "3.0" <;>
      cases hv2 : p.version.getD "1.0" == "2.0" <;>
        simp_all

/-- C8 (counterexample). `c8_doc` carries the explicit top-level version
field `"2.0"`, yet detection returns `"3.0"`: the `segments` content
marker overrides the explicit field, contradicting the claimed
precedence. -/
theorem C8_counterexample :
    c8_doc.version = some "2.0" ∧
    detect_version c8_doc = "3.0" ∧ detect_version c8_doc ≠ "2.0" := by
  decide

/-- C8 (amended): when the document carries an explicit top-level version
field, an explicit `"3.0"` always yields v3; an explicit `"2.0"` yields
v2 unless some scene carries a `segments` key, which forces v3; any
other explicit value is ignored, and the content markers decide
(`segments` implies v3, else `first_keyframe` implies v2, else v1). -/
theorem C8_version_precedence (p : Pipeline) (v : String)
    (h : p.version = some v) :
    detect_version p =
      (if v == "3.0" then "3.0"
       else if p.scenes.any (fun s => s.segments.isSome) then "3.0"
       else if v == "2.0" || p.has_first_keyframe then "2.0"
       else "1.0") := by
  unfold detect_version
  rw [h]
  simp only [Option.getD_some]
  cases hv3 : v == "3.0" <;>
    cases hseg : p.scenes.any (fun s => s.segments.isSome) <;>
      simp [hv3, hseg]

/-- C8 (witness): the amended precedence theorem applied to `c8_doc`. -/
theorem C8_version_precedence_witness :
    c8_doc.version = some "2.0" ∧ detect_version c8_doc = "3.0" :=
  ⟨rfl, by rw [C8_version_precedence c8_doc "2.0" rfl]; decide⟩

/-- The characterization of the derived scene status asserted by claim
C3, parameterised by the scene and its segment list. -/
def scene_status_spec (scene : Scene) (segs : List Segment) : Prop :=
  (compute_scene_status scene = "approved" ↔ ∀ s ∈ segs, s.status = "approved") ∧
  (compute_scene_status scene ≠ "approved" →
    (compute_scene_status scene = "generated" ↔
      ∀ s ∈ segs, s.status = "generated" ∨ s.status = "approved")) ∧
  (compute_scene_status scene = "failed" ↔ ∃ s ∈ segs, s.status = "failed") ∧
  (compute_scene_status scene = "in_progress" ↔
    ((∃ s ∈ segs, s.status = "in_progress") ∧ ¬ ∃ s ∈ segs, s.status = "failed")) ∧
  (compute_scene_status scene = "pending" ↔
    (¬ (∀ s ∈ segs, s.status = "generated" ∨ s.status = "approved") ∧
     ¬ (∃ s ∈ segs, s.status = "failed") ∧
     ¬ (∃ s ∈ segs, s.status = "in_progress")))

/-- Characterization of the `scene_status_of` if/elif chain over an
arbitrary status list: each possible result is equivalent to the claimed
condition on the list. -/
lemma scene_status_of_spec (st : List String) :
    (scene_status_of st = "approved" ↔ ∀ x ∈ st, x = "approved") ∧
    (scene_status_of st ≠ "approved" →
      (scene_status_of st = "generated" ↔ ∀ x ∈ st, x = "generated" ∨ x = "approved")) ∧
    (scene_status_of st = "failed" ↔ ∃ x ∈ st, x = "failed") ∧
    (scene_status_of st = "in_progress" ↔
      ((∃ x ∈ st, x = "in_progress") ∧ ¬ ∃ x ∈ st, x = "failed")) ∧
    (scene_status_of st = "pending" ↔
      (¬ (∀ x ∈ st, x = "generated" ∨ x = "approved") ∧
       ¬ (∃ x ∈ st, x = "failed") ∧ ¬ (∃ x ∈ st, x = "in_progress"))) := by
  by_cases hA : ∀ x ∈ st, x = "approved"
  · have hA' : st.all (fun s => s == "approved") = true := by
      simpa [List.all_eq_true] using hA
    have hval : scene_status_of st = "approved" := by
      simp [scene_status_of, hA']
    have hGp : ∀ x ∈ st, x = "generated" ∨ x = "approved" :=
      fun x hx => Or.inr (hA x hx)
    have hF : ¬ ∃ x ∈ st, x = "failed" := by
      rintro ⟨x, hx, hfail⟩
      have := hA x hx
      rw [hfail] at this
      exact absurd this (by decide)
    have hI : ¬ ∃ x ∈ st, x = "in_progress" := by
      rintro ⟨x, hx, hip⟩
      have := hA x hx
      rw [hip] at this
      exact absurd this (by decide)
    simp [hval, hA, hGp, hF, hI]
    exact ⟨hA, fun x hx _ => hA x hx⟩
  · have hA' : st.all (fun s => s == "approved") = false := by
      rw [Bool.eq_false_iff]
      intro hall
      exact hA (by simpa [List.all_eq_true] using hall)
    by_cases hG : ∀ x ∈ st, x = "generated" ∨ x = "approved"
    · have hG' : st.all (fun s => s == "generated" || s == "approved") = true := by
        simp only [List.all_eq_true]
        intro x hx
        rcases hG x hx with h | h <;> simp [h]
      have hval : scene_status_of st = "generated" := by
        simp [scene_status_of, hA', hG']
      have hF : ¬ ∃ x ∈ st, x = "failed" := by
        rintro ⟨x, hx, hfail⟩
        rcases hG x hx with h | h <;> rw [hfail] at h <;> exact absurd h (by decide)
      have hI : ¬ ∃ x ∈ st, x = "in_progress" := by
        rintro ⟨x, hx, hip⟩
        rcases hG x hx with h | h <;> rw [hip] at h <;> exact absurd h (by decide)
      simp [hval, hA, hG, hF, hI]
      exact ⟨hG, fun x hx h => (hG x hx).resolve_left h⟩
    · have hG' : st.all (fun s => s == "generated" || s == "approved") = false := by
        rw [Bool.eq_false_iff]
        intro hall
        apply hG
        intro x hx
        have := (List.all_eq_true.mp hall) x hx
        rcases Bool.or_eq_true_iff.mp this with h | h
        · exact Or.inl (by simpa using h)
        · exact Or.inr (by simpa using h)
      by_cases hF : ∃ x ∈ st, x = "failed"
      · have hF' : st.any (fun s => s == "failed") = true := by
          simpa [List.any_eq_true] using hF
        have hval : scene_status_of st = "failed" := by
          simp [scene_status_of, hA', hG', hF']
        simp [hval, hA, hG, hF]
      · have hF' : st.any (fun s => s == "failed") = false := by
          rw [Bool.eq_false_iff]
          intro hany
          exact hF (by simpa [List.any_eq_true] using hany)
        by_cases hI : ∃ x ∈ st, x = "in_progress"
        · have hI' : st.any (fun s => s == "in_progress") = true := by
            simpa [List.any_eq_true] using hI
          have hval : scene_status_of st = "in_progress" := by
            simp [scene_status_of, hA', hG', hF', hI']
          simp [hval, hA, hG, hF, hI]
        · have hI' : st.any (fun s => s == "in_progress") = false := by
            rw [Bool.eq_false_iff]
            intro hany
            exact hI (by simpa [List.any_eq_true] using hany)
          have hval : scene_status_of st = "pending" := by
            simp [scene_status_of, hA', hG', hF', hI']
          simp [hval, hA, hG, hF, hI]

/-- C3: for every v3 scene with a non-empty segment list, the computed
scene status is `approved` iff every segment is approved; otherwise
`generated` iff every segment is generated-or-approved; `failed` iff some
segment failed; `in_progress` iff some segment is in progress and none
failed; and `pending` otherwise. -/
theorem C3_derived_scene_status (scene : Scene) (segs : List Segment)
    (hsegs : scene.segments = some segs) (hne : segs ≠ []) :
    scene_status_spec scene segs := by
  have hmap : compute_scene_status scene =
      scene_status_of (segs.map (fun s => s.status)) := by
    unfold compute_scene_status
    rw [hsegs]
    simp only [Option.getD_some]
    rw [if_neg (by simpa [List.isEmpty_iff] using hne)]
  have h := scene_status_of_spec (segs.map (fun s => s.status))
  unfold scene_status_spec
  rw [hmap]
  simp only [List.mem_map, forall_exists_index, and_imp,
    forall_apply_eq_imp_iff₂, exists_eq_right] at h
  exact h

/-- A concrete scene exercising C3: one approved, one failed segment. -/
def c3_scene : Scene :=
  { id := "scene-01"
    segments := some
      [{ id := "scene-01-seg-01", status := "approved",
         output_video := "scene-01/seg-01.mp4",
         output_keyframe := some "scene-01/seg-01-end.png" },
       { id := "scene-01-seg-02", status := "failed",
         output_video := "scene-01/seg-02.mp4", output_keyframe := none }]
    status := "pending"
    output_video := "scene-01/merged.mp4" }

/-- C3 (witness): the characterization applied to `c3_scene`. -/
theorem C3_derived_scene_status_witness :
    c3_scene.segments = some (c3_scene.segments.getD []) ∧
    (c3_scene.segments.getD []) ≠ [] ∧
    scene_status_spec c3_scene (c3_scene.segments.getD []) :=
  ⟨rfl, by decide,
   C3_derived_scene_status c3_scene (c3_scene.segments.getD []) rfl (by decide)⟩

/-- One entry of an asset collection (characters, backgrounds or styles),
keyed by its dict key `id`. `prompt` and `output` only feed the generated
command line and are abstracted into the `ok` oracle together with the
command itself. -/
structure Asset where
  id : String
  status : String
deriving Repr, DecidableEq

/-- The per-item body of the `execute_assets` loops (execute_pipeline.py
lines 278-300, identical for backgrounds and styles): skip an item whose
status is already `generated` or `approved`, otherwise invoke the
generation command (abstracted by `ok item.id`) and record `generated` on
success, `failed` on a nonzero exit, timeout or exception. The second
component counts external command invocations (0 or 1). -/
def run_asset_item (ok : String → Bool) (a : Asset) : Asset × Nat :=
  if a.status == "generated" || a.status == "approved" then (a, 0)
  else if ok a.id then ({ a with status := "generated" }, 1)
  else ({ a with status := "failed" }, 1)

/-- `PipelineExecutor.execute_assets` restricted to one collection: fold
the per-item algorithm over the items in dict order, returning the
updated collection and the total number of external invocations. -/
def execute_assets (ok : String → Bool) : List Asset → List Asset × Nat
  | [] => ([], 0)
  | a :: rest =>
    let r1 := run_asset_item ok a
    let r2 := execute_assets ok rest
    (r1.1 :: r2.1, r1.2 + r2.2)

/-- `PipelineExecutor.execute_scene_segments` (lines 753-830): run the
segments of one scene strictly in order, threading the start keyframe.
A segment whose status is `generated`/`approved` is skipped (its
`output_keyframe`, when present, replaces the threaded keyframe path).
Otherwise the generation command runs (`ok seg.id`); on failure the
segment is marked `failed` and the function returns `none` immediately,
leaving all later segments untouched. On success the last frame is
extracted when the segment declares an `output_keyframe`
(`extractOk seg.output_video` abstracts `_extract_last_frame`; a failed
extraction only skips the keyframe update), and the segment is marked
`generated`. The transient `in_progress` written just before the command
(line 810) is always overwritten by `failed` or `generated` before the
function returns, so only the final status is modelled. Result:
(updated segments, number of external invocations, `some` final keyframe
path on completion / `none` on halt). -/
def execute_scene_segments (ok extractOk : String → Bool) :
    String → List Segment → List Segment × Nat × Option String
  | kf, [] => ([], 0, some kf)
  | kf, seg :: rest =>
    if seg.status == "generated" || seg.status == "approved" then
      let kf2 := seg.output_keyframe.getD kf
      let r := execute_scene_segments ok extractOk kf2 rest
      (seg :: r.1, r.2.1, r.2.2)
    else if ok seg.id then
      let kf2 :=
        match seg.output_keyframe with
        | some k => if extractOk seg.output_video then k else kf
        | none => kf
      let r := execute_scene_segments ok extractOk kf2 rest
      ({ seg with status := "generated" } :: r.1, r.2.1 + 1, r.2.2)
    else
      ({ seg with status := "failed" } :: rest, 1, none)

/-- A collection whose every item is already `generated`/`approved` is
passed over without change and without any external invocation. -/
lemma execute_assets_all_skip (ok : String → Bool) (l : List Asset)
    (h : ∀ a ∈ l, a.status = "generated" ∨ a.status = "approved") :
    execute_assets ok l = (l, 0) := by
  induction l with
  | nil => rfl
  | cons a rest ih =>
    have ha : (a.status == "generated" || a.status == "approved") = true := by
      rcases h a (List.mem_cons_self a rest) with h1 | h1 <;> simp [h1]
    have hrest := ih (fun b hb => h b (List.mem_cons_of_mem a hb))
    simp [execute_assets, run_asset_item, ha, hrest]

/-- After a run in which every invoked command succeeds, every item of
the collection carries status `generated` or `approved`. -/
lemma execute_assets_statuses (ok : String → Bool) (l : List Asset)
    (h : ∀ a ∈ l, ok a.id = true) :
    ∀ b ∈ (execute_assets ok l).1, b.status = "generated" ∨ b.status = "approved" := by
  induction l with
  | nil => intro b hb; simp [execute_assets] at hb
  | cons a rest ih =>
    intro b hb
    have hok := h a (List.mem_cons_self a rest)
    have ih' := ih (fun c hc => h c (List.mem_cons_of_mem a hc))
    by_cases hskip : (a.status == "generated" || a.status == "approved") = true
    · rw [execute_assets] at hb
      simp only [run_asset_item, hskip, if_pos rfl, if_true] at hb
      rcases List.mem_cons.mp hb with rfl | hb'
      · rcases Bool.or_eq_true_iff.mp hskip with h1 | h1
        · exact Or.inl (by simpa using h1)
        · exact Or.inr (by simpa using h1)
      · exact ih' b hb'
    · rw [execute_assets] at hb
      simp only [run_asset_item, hskip, Bool.false_eq_true, if_false, hok, if_pos rfl,
        if_true] at hb
      rcases List.mem_cons.mp hb with rfl | hb'
      · exact Or.inl rfl
      · exact ih' b hb'

/-- A segment list whose every entry is already `generated`/`approved` is
passed over without change and without any external invocation. -/
lemma execute_scene_segments_all_skip (ok extractOk : String → Bool)
    (l : List Segment) (kf : String)
    (h : ∀ s ∈ l, s.status = "generated" ∨ s.status = "approved") :
    (execute_scene_segments ok extractOk kf l).1 = l ∧
    (execute_scene_segments ok extractOk kf l).2.1 = 0 := by
  induction l generalizing kf with
  | nil => exact ⟨rfl, rfl⟩
  | cons seg rest ih =>
    have hskip : (seg.status == "generated" || seg.status == "approved") = true := by
      rcases h seg (List.mem_cons_self seg rest) with h1 | h1 <;> simp [h1]
    have ih' := ih (seg.output_keyframe.getD kf)
      (fun s hs => h s (List.mem_cons_of_mem seg hs))
    rw [execute_scene_segments]
    simp only [hskip, if_pos rfl, if_true]
    exact ⟨by rw [ih'.1], ih'.2⟩

/-- After a segment run in which every invoked command succeeds, every
segment carries status `generated` or `approved`. -/
lemma execute_scene_segments_statuses (ok extractOk : String → Bool)
    (l : List Segment) (kf : String)
    (h : ∀ s ∈ l, ok s.id = true) :
    ∀ t ∈ (execute_scene_segments ok extractOk kf l).1,
      t.status = "generated" ∨ t.status = "approved" := by
  induction l generalizing kf with
  | nil => intro t ht; simp [execute_scene_segments] at ht
  | cons seg rest ih =>
    intro t ht
    have hok := h seg (List.mem_cons_self seg rest)
    by_cases hskip : (seg.status == "generated" || seg.status == "approved") = true
    · rw [execute_scene_segments] at ht
      simp only [hskip, if_pos rfl, if_true] at ht
      rcases List.mem_cons.mp ht with rfl | ht'
      · rcases Bool.or_eq_true_iff.mp hskip with h1 | h1
        · exact Or.inl (by simpa using h1)
        · exact Or.inr (by simpa using h1)
      · exact ih _ (fun s hs => h s (List.mem_cons_of_mem seg hs)) t ht'
    · rw [execute_scene_segments] at ht
      simp only [hskip, Bool.false_eq_true, if_false, hok, if_pos rfl, if_true] at ht
      rcases List.mem_cons.mp ht with rfl | ht'
      · exact Or.inl rfl
      · exact ih _ (fun s hs => h s (List.mem_cons_of_mem seg hs)) t ht'

/-- C1: an entity whose status is `generated` or `approved` is skipped by
the stage runner — no external command is invoked for it and its status
is unchanged — and consequently, when every command of a first run
succeeds, a second run of the same stage performs zero external
invocations, both for the asset stage and for the per-scene segment
stage. -/
theorem C1_idempotent_resume (ok extractOk : String → Bool)
    (items : List Asset) (kf : String) (segs : List Segment)
    (hokA : ∀ a ∈ items, ok a.id = true)
    (hokS : ∀ s ∈ segs, ok s.id = true) :
    (∀ a : Asset, (a.status = "generated" ∨ a.status = "approved") →
        run_asset_item ok a = (a, 0)) ∧
    (∀ l : List Asset, (∀ a ∈ l, a.status = "generated" ∨ a.status = "approved") →
        execute_assets ok l = (l, 0)) ∧
    (∀ (l : List Segment) (kf2 : String),
        (∀ s ∈ l, s.status = "generated" ∨ s.status = "approved") →
        (execute_scene_segments ok extractOk kf2 l).1 = l ∧
        (execute_scene_segments ok extractOk kf2 l).2.1 = 0) ∧
    (execute_assets ok (execute_assets ok items).1).2 = 0 ∧
    (execute_scene_segments ok extractOk kf
        ((execute_scene_segments ok extractOk kf segs).1)).2.1 = 0 := by
  refine ⟨?_, ?_, ?_, ?_, ?_⟩
  · intro a ha
    have hskip : (a.status == "generated" || a.status == "approved") = true := by
      rcases ha with h1 | h1 <;> simp [h1]
    simp [run_asset_item, hskip]
  · exact fun l h => execute_assets_all_skip ok l h
  · exact fun l kf2 h => execute_scene_segments_all_skip ok extractOk l kf2 h
  · have := execute_assets_all_skip ok (execute_assets ok items).1
      (execute_assets_statuses ok items hokA)
    rw [this]
  · exact (execute_scene_segments_all_skip ok extractOk
      ((execute_scene_segments ok extractOk kf segs).1) kf
      (execute_scene_segments_statuses ok extractOk segs kf hokS)).2

/-- Concrete data for the C1 witness: one already-approved and one
pending character. -/
def c1_items : List Asset :=
  [{ id := "CHAR-A", status := "approved" }, { id := "CHAR-B", status := "pending" }]

/-- Concrete segment list for the C1 witness. -/
def c1_segs : List Segment :=
  [{ id := "scene-01-seg-01", status := "generated",
     output_video := "scene-01/seg-01.mp4",
     output_keyframe := some "scene-01/seg-01-end.png" },
   { id := "scene-01-seg-02", status := "pending",
     output_video := "scene-01/seg-02.mp4", output_keyframe := none }]

/-- C1 (witness): the idempotent-resume theorem applied to a concrete
plan in which every generation command succeeds. -/
theorem C1_idempotent_resume_witness :
    (∀ a ∈ c1_items, (fun _ => true) a.id = true) ∧
    (execute_assets (fun _ => true) (execute_assets (fun _ => true) c1_items).1).2 = 0 ∧
    (execute_scene_segments (fun _ => true) (fun _ => true) "start.png"
        ((execute_scene_segments (fun _ => true) (fun _ => true) "start.png" c1_segs).1)).2.1 = 0 :=
  ⟨by decide,
   (C1_idempotent_resume (fun _ => true) (fun _ => true) c1_items "start.png" c1_segs
      (by decide) (by decide)).2.2.2.1,
   (C1_idempotent_resume (fun _ => true) (fun _ => true) c1_items "start.png" c1_segs
      (by decide) (by decide)).2.2.2.2⟩

/-- A prefix whose every segment is either skipped or generated
successfully runs to completion: the threaded keyframe result is `some`. -/
lemma execute_scene_segments_progress (ok extractOk : String → Bool)
    (pre : List Segment) (kf : String)
    (h : ∀ x ∈ pre, x.status = "generated" ∨ x.status = "approved" ∨ ok x.id = true) :
    ∃ kf2, (execute_scene_segments ok extractOk kf pre).2.2 = some kf2 := by
  induction pre generalizing kf with
  | nil => exact ⟨kf, rfl⟩
  | cons seg rest ih =>
    have hrest := fun kf2 => ih kf2 (fun x hx => h x (List.mem_cons_of_mem seg hx))
    rw [execute_scene_segments]
    by_cases hskip : (seg.status == "generated" || seg.status == "approved") = true
    · simpa [hskip] using hrest (seg.output_keyframe.getD kf)
    · have hok : ok seg.id = true := by
        rcases h seg (List.mem_cons_self seg rest) with h1 | h1 | h1
        · exact absurd (by simp [h1]) hskip
        · exact absurd (by simp [h1]) hskip
        · exact h1
      simp only [hskip, Bool.false_eq_true, if_false, hok, if_pos rfl, if_true]
      exact hrest _

/-- Running the segment executor over `pre ++ rest` decomposes into the
run over `pre` followed by the run over `rest` from the keyframe that the
prefix run produced, provided the prefix run completed. -/
lemma execute_scene_segments_append (ok extractOk : String → Bool)
    (pre rest : List Segment) (kf kf2 : String)
    (h : (execute_scene_segments ok extractOk kf pre).2.2 = some kf2) :
    execute_scene_segments ok extractOk kf (pre ++ rest) =
      ((execute_scene_segments ok extractOk kf pre).1 ++
         (execute_scene_segments ok extractOk kf2 rest).1,
       (execute_scene_segments ok extractOk kf pre).2.1 +
         (execute_scene_segments ok extractOk kf2 rest).2.1,
       (execute_scene_segments ok extractOk kf2 rest).2.2) := by
  induction pre generalizing kf with
  | nil =>
    simp only [execute_scene_segments, Option.some.injEq] at h
    subst h
    simp [execute_scene_segments]
  | cons seg pre' ih =>
    by_cases hskip : (seg.status == "generated" || seg.status == "approved") = true
    · rw [execute_scene_segments] at h
      simp only [hskip, if_pos rfl, if_true] at h
      have := ih (seg.output_keyframe.getD kf) h
      rw [List.cons_append, execute_scene_segments]
      simp only [hskip, if_pos rfl, if_true, this]
      rw [execute_scene_segments]
      simp [hskip]
    · by_cases hok : ok seg.id = true
      · rw [execute_scene_segments] at h
        simp only [hskip, Bool.false_eq_true, if_false, hok, if_pos rfl, if_true] at h
        have := ih _ h
        rw [List.cons_append, execute_scene_segments]
        simp only [hskip, Bool.false_eq_true, if_false, hok, if_pos rfl, if_true, this]
        rw [execute_scene_segments]
        simp only [hskip, Bool.false_eq_true, if_false, hok, if_pos rfl, if_true]
        rw [Prod.mk.injEq, Prod.mk.injEq]
        exact ⟨rfl, by omega, rfl⟩
      · rw [execute_scene_segments] at h
        simp only [hskip, Bool.false_eq_true, if_false, hok, if_pos rfl] at h
        cases h

/-- When the segment list is `some l` and `l` contains a failed segment,
the derived scene status is `failed`. -/
lemma compute_scene_status_of_failed_mem (scene : Scene) (l : List Segment)
    (hsegs : scene.segments = some l) (s : Segment) (hs : s ∈ l)
    (hfail : s.status = "failed") :
    compute_scene_status scene = "failed" := by
  have hne : l ≠ [] := by rintro rfl; simp at hs
  have hmap : compute_scene_status scene =
      scene_status_of (l.map (fun t => t.status)) := by
    unfold compute_scene_status
    rw [hsegs]
    simp only [Option.getD_some]
    rw [if_neg (by simpa [List.isEmpty_iff] using hne)]
  rw [hmap]
  exact ((scene_status_of_spec (l.map (fun t => t.status))).2.2.1).mpr
    ⟨s.status, List.mem_map_of_mem (fun t => t.status) hs, hfail⟩

/-- C4: if execution reaches segment `s` of a scene (every earlier
segment is either skipped or succeeds) and the generation command for `s`
fails, then `s` is marked `failed`, the segments after `s` are left
exactly as they were (never attempted: the invocation count is the
prefix's count plus one, and the run aborts with `none`), and the derived
status of the resulting scene is `failed`. -/
theorem C4_sequential_halt (ok extractOk : String → Bool) (kf : String)
    (pre post : List Segment) (s : Segment) (scene : Scene)
    (hpre : ∀ x ∈ pre, x.status = "generated" ∨ x.status = "approved" ∨ ok x.id = true)
    (hs1 : s.status ≠ "generated") (hs2 : s.status ≠ "approved")
    (hs3 : ok s.id = false)
    (hscene : scene.segments =
      some (execute_scene_segments ok extractOk kf (pre ++ s :: post)).1) :
    (execute_scene_segments ok extractOk kf (pre ++ s :: post)).1 =
      (execute_scene_segments ok extractOk kf pre).1 ++
        ({ s with status := "failed" } :: post) ∧
    (execute_scene_segments ok extractOk kf (pre ++ s :: post)).2.1 =
      (execute_scene_segments ok extractOk kf pre).2.1 + 1 ∧
    (execute_scene_segments ok extractOk kf (pre ++ s :: post)).2.2 = none ∧
    compute_scene_status scene = "failed" := by
  obtain ⟨kf2, hkf2⟩ := execute_scene_segments_progress ok extractOk pre kf hpre
  have happ := execute_scene_segments_append ok extractOk pre (s :: post) kf kf2 hkf2
  have hskip : (s.status == "generated" || s.status == "approved") = false := by
    simp [hs1, hs2]
  have hstep : execute_scene_segments ok extractOk kf2 (s :: post) =
      ({ s with status := "failed" } :: post, 1, none) := by
    rw [execute_scene_segments]
    simp [hskip, hs3]
  rw [happ, hstep]
  refine ⟨rfl, rfl, rfl, ?_⟩
  exact compute_scene_status_of_failed_mem scene
    ((execute_scene_segments ok extractOk kf pre).1 ++
      ({ s with status := "failed" } :: post))
    (by rw [hscene, happ, hstep])
    { s with status := "failed" }
    (List.mem_append_right _ (List.mem_cons_self _ _))
    rfl

/-- Concrete data for the C4 witness: one approved prefix segment, a
failing segment and one untouched trailing segment. -/
def c4_pre : List Segment :=
  [{ id := "scene-02-seg-01", status := "approved",
     output_video := "scene-02/seg-01.mp4",
     output_keyframe := some "scene-02/seg-01-end.png" }]

/-- The failing segment of the C4 witness. -/
def c4_fail_seg : Segment :=
  { id := "scene-02-seg-02", status := "pending",
    output_video := "scene-02/seg-02.mp4",
    output_keyframe := some "scene-02/seg-02-end.png" }

/-- The trailing segment of the C4 witness, which must never be
attempted. -/
def c4_post : List Segment :=
  [{ id := "scene-02-seg-03", status := "pending",
     output_video := "scene-02/seg-03.mp4", output_keyframe := none }]

/-- The command oracle of the C4 witness: every command fails. -/
def c4_ok : String → Bool := fun _ => false

/-- The scene holding the segment list that results from the halted C4
witness run. -/
def c4_scene : Scene :=
  { id := "scene-02"
    segments := some (execute_scene_segments c4_ok (fun _ => true) "s.png"
      (c4_pre ++ c4_fail_seg :: c4_post)).1
    status := "pending"
    output_video := "scene-02/merged.mp4" }

/-- C4 (witness): the sequential-halt theorem applied to the concrete
scene; in particular the trailing segment stays `pending` and the scene
status derives to `failed`. -/
theorem C4_sequential_halt_witness :
    (execute_scene_segments c4_ok (fun _ => true) "s.png"
        (c4_pre ++ c4_fail_seg :: c4_post)).1 =
      (execute_scene_segments c4_ok (fun _ => true) "s.png" c4_pre).1 ++
        ({ c4_fail_seg with status := "failed" } :: c4_post) ∧
    (execute_scene_segments c4_ok (fun _ => true) "s.png"
        (c4_pre ++ c4_fail_seg :: c4_post)).2.2 = none ∧
    compute_scene_status c4_scene = "failed" :=
  have h := C4_sequential_halt c4_ok (fun _ => true) "s.png" c4_pre c4_post
    c4_fail_seg c4_scene (by decide) (by decide) (by decide) (by decide) rfl
  ⟨h.1, h.2.2.1, h.2.2.2⟩

/-- In-memory and on-disk view of one asset collection. `mem` is the
live collection inside `self.pipeline`; `disk` is the copy of that
collection inside the document last written by `_save_pipeline`
(execute_pipeline.py lines 70-73, a full rewrite of `pipeline.json`). -/
structure AssetsState where
  mem : List Asset
  disk : List Asset
deriving Repr, DecidableEq

/-- Set the status of the entity with the given id (mutation by id, as in
`self.pipeline["assets"][asset_type][item_id]["status"] = status`). -/
def set_status (l : List Asset) (id status : String) : List Asset :=
  l.map (fun a => if a.id == id then { a with status := status } else a)

/-- `PipelineExecutor._update_asset_status` (lines 125-130): when the id
is present in the collection, set its status and immediately persist the
whole document (`_save_pipeline`), so the disk copy becomes the current
in-memory collection. -/
def update_asset_status (st : AssetsState) (id status : String) : AssetsState :=
  if st.mem.any (fun a => a.id == id) then
    let mem := set_status st.mem id status
    { mem := mem, disk := mem }
  else st

/-- `execute_assets` over the stateful collection. Every processed item
triggers one `update_asset_status`, whose save writes the then-current
collection; since later iterations either skip (no change) or update and
save again, the document on disk after the stage equals the final
in-memory collection whenever at least one item was processed, and is
untouched when every item was skipped. The pure `execute_assets` supplies
the final collection and the invocation count. -/
def execute_assets_st (ok : String → Bool) (st : AssetsState) : AssetsState × Nat :=
  let r := execute_assets ok st.mem
  if r.2 = 0 then ({ st with mem := r.1 }, 0)
  else ({ mem := r.1, disk := r.1 }, r.2)

/-- `PipelineExecutor.regenerate` for an asset id (lines 1015-1032):
reset the item to `pending` (persisted), snapshot the collection with
`dict.copy()`, narrow the live collection to the single item, run the
normal asset stage, then restore the snapshot in memory. Two source
facts matter here: `.copy()` is a SHALLOW copy, so the snapshot shares
the per-item dicts and the restored collection shows the regenerated
item's final status; and no save follows the restore — the document on
disk stays whatever the narrowed stage run last wrote. -/
def regenerate_asset (ok : String → Bool) (st : AssetsState) (id : String) :
    AssetsState :=
  if st.mem.any (fun a => a.id == id) then
    let st1 := update_asset_status st id "pending"
    let original := st1.mem
    let narrowed : AssetsState := { st1 with mem := st1.mem.filter (fun a => a.id == id) }
    let st2 := (execute_assets_st ok narrowed).1
    let restored := original.map (fun a =>
      if a.id == id then ((st2.mem.find? (fun x => x.id == id)).getD a) else a)
    { st2 with mem := restored }
  else st

/-- The collection of the C7 failing input: entity `CHAR-A` to be
regenerated alongside its already-generated sibling `CHAR-B`. -/
def c7_input : AssetsState :=
  { mem := [{ id := "CHAR-A", status := "failed" },
            { id := "CHAR-B", status := "generated" }],
    disk := [{ id := "CHAR-A", status := "failed" },
             { id := "CHAR-B", status := "generated" }] }

/-- C7 (code bug, evaluated at the failing input): regenerating `CHAR-A`
with a succeeding generation command leaves the sibling `CHAR-B` present
and unchanged in the in-memory collection, but the document persisted to
disk was last saved while the collection was narrowed to `CHAR-A` alone,
so on disk the sibling has been dropped — contradicting the claim that
every sibling is still present with unchanged status in the persisted
document. -/
theorem C7_regenerate_drops_siblings_on_disk :
    (regenerate_asset (fun _ => true) c7_input "CHAR-A").mem =
      [{ id := "CHAR-A", status := "generated" },
       { id := "CHAR-B", status := "generated" }] ∧
    (regenerate_asset (fun _ => true) c7_input "CHAR-A").disk =
      [{ id := "CHAR-A", status := "generated" }] := by
  decide

/-- One websocket read outcome inside `wait_for_completion`
(comfyui_client.py lines 438-492): an `executing` event naming a node, an
`executing` event with node `null` for this prompt (completion push), a
`progress` event, an `execution_error` event, or a hard connection error
(`WebSocketException`/`OSError` raised by the read). A read that yields
no event within the socket timeout is modelled as `none` on the stream. -/
inductive StreamMsg
  | executingNode (node : String)
  | executingDone
  | progress
  | execError
  | connError
deriving Repr, DecidableEq

/-- Result of the completion protocol: `success` and `timedOut` carry the
discretised elapsed time at which the loop head observed them; `failed`
models a raised `ComfyUIError`; `connError` is the internal outcome of
the streaming phase that triggers the polling fallback; `outOfFuel` is an
artifact of the bounded embedding of `while True`. -/
inductive WaitResult
  | success (elapsed : Nat)
  | timedOut (elapsed : Nat)
  | failed (elapsed : Nat)
  | connError (elapsed : Nat)
  | outOfFuel
deriving Repr, DecidableEq

/-- The backend state observed by `wait_for_completion`, held constant
over one call: whether the prompt is still queued (`is_prompt_in_queue`),
whether `prompt_id in history`, whether the history record carries
`"outputs"`, whether its status says `completed`, and whether its
`status_str` is `"error"`. -/
structure Backend where
  inQueue : Bool
  histPresent : Bool
  histOutputs : Bool
  histCompleted : Bool
  histError : Bool
deriving Repr, DecidableEq

/-- The streaming phase of `ComfyUIClient.wait_for_completion`
(comfyui_client.py lines 411-494), discretised to whole seconds. Each
loop iteration: (1) raise `TimeoutError` when elapsed exceeds `timeout`;
(2) when at least `history_check_interval = 3` seconds passed since the
last periodic check, query history and stop successfully if the record is
present with outputs; (3) read the stream — a delivered event costs one
second, a read timeout costs `pollInterval` seconds (the socket timeout
set by `ws.settimeout(poll_interval)`). On a read timeout the handler
checks the queue and the history: absence from the queue with a history
record, or a history record marked completed / carrying outputs, ends the
wait successfully (the source's three staggered re-reads after
`time.sleep` collapse here because the backend state is constant).
`stream` is indexed by the elapsed time at the loop head; the first
argument is fuel. -/
def stream_loop (b : Backend) (stream : Nat → Option StreamMsg)
    (timeout pollInterval : Nat) : Nat → Nat → Nat → WaitResult
  | 0, _, _ => .outOfFuel
  | fuel + 1, elapsed, lastCheck =>
    if timeout < elapsed then .timedOut elapsed
    else if (lastCheck + 3 ≤ elapsed) ∧ (b.histPresent && b.histOutputs) = true then
      .success elapsed
    else
      let lc := if lastCheck + 3 ≤ elapsed then elapsed else lastCheck
      match stream elapsed with
      | some .executingDone => .success elapsed
      | some (.executingNode _) =>
        stream_loop b stream timeout pollInterval fuel (elapsed + 1) lc
      | some .progress =>
        stream_loop b stream timeout pollInterval fuel (elapsed + 1) lc
      | some .execError => .failed elapsed
      | some .connError => .connError elapsed
      | none =>
        if !b.inQueue && b.histPresent then .success elapsed
        else if b.histPresent && (b.histCompleted || b.histOutputs) then .success elapsed
        else stream_loop b stream timeout pollInterval fuel (elapsed + pollInterval) lc

/-- The polling fallback of `wait_for_completion` (lines 502-525),
entered only from the `WebSocketException`/`OSError` handler: raise
`TimeoutError` past the deadline; when the prompt left the queue, sleep
one second and read history — an error status raises, a present record
ends the wait; otherwise sleep `poll_interval` and repeat. -/
def poll_loop (b : Backend) (timeout pollInterval : Nat) : Nat → Nat → WaitResult
  | 0, _ => .outOfFuel
  | fuel + 1, elapsed =>
    if timeout < elapsed then .timedOut elapsed
    else if !b.inQueue then
      if b.histPresent then
        if b.histError then .failed (elapsed + 1) else .success (elapsed + 1)
      else poll_loop b timeout pollInterval fuel (elapsed + 1 + pollInterval)
    else poll_loop b timeout pollInterval fuel (elapsed + pollInterval)

/-- The epilogue of `wait_for_completion` (lines 527-541): after a
successful wait, fetch the history once more; a missing record or an
`error` status raises `ComfyUIError`, otherwise the record is returned. -/
def finalize (b : Backend) : WaitResult → WaitResult
  | .success e =>
    if !b.histPresent then .failed e
    else if b.histError then .failed e
    else .success e
  | r => r

/-- `ComfyUIClient.wait_for_completion`: run the streaming phase; a hard
connection error enters the polling fallback from the same elapsed time.
The source's handler order matters and is preserved here: `except
TimeoutError: raise` (line 496-498) precedes the
`except (websocket.WebSocketException, OSError)` fallback handler, and in
Python `TimeoutError` is a subclass of `OSError`, so without that first
handler a deadline overrun would be swallowed into polling; accordingly a
`timedOut` result of the streaming phase propagates and only `connError`
reaches the fallback. -/
def wait_for_completion (b : Backend) (stream : Nat → Option StreamMsg)
    (timeout pollInterval fuel : Nat) : WaitResult :=
  let phase1 := stream_loop b stream timeout pollInterval fuel 0 0
  let r :=
    match phase1 with
    | .connError elapsed => poll_loop b timeout pollInterval fuel elapsed
    | r => r
  finalize b r

/-- C5: when the backend history already holds a terminal record with
outputs, `wait_for_completion` succeeds on the very first stream
read-timeout tick (elapsed time 0 at the deciding loop head), for every
timeout budget and regardless of the queue state — no event ever arrives
on the stream; and with a stream that keeps delivering progress events
(so no read ever times out), the fixed 3-second history cadence still
ends the wait at elapsed time 3. -/
theorem C5_completion_race (b : Backend) (timeout pollInterval fuel : Nat)
    (hb1 : b.histPresent = true) (hb2 : b.histOutputs = true)
    (hb3 : b.histError = false) (hfuel : 1 ≤ fuel) :
    wait_for_completion b (fun _ => none) timeout pollInterval fuel = .success 0 ∧
    (3 ≤ timeout → 4 ≤ fuel →
      wait_for_completion b (fun _ => some .progress) timeout pollInterval fuel =
        .success 3) := by
  constructor
  · obtain ⟨f, rfl⟩ : ∃ f, fuel = f + 1 := ⟨fuel - 1, by omega⟩
    cases hq : b.inQueue <;>
      simp [wait_for_completion, stream_loop, finalize, hb1, hb2, hb3, hq]
  · intro ht hfuel4
    obtain ⟨f, rfl⟩ : ∃ f, fuel = f + 1 + 1 + 1 + 1 := ⟨fuel - 4, by omega⟩
    have h0 : ¬ timeout < 0 := by omega
    have h1 : ¬ timeout < 1 := by omega
    have h2 : ¬ timeout < 2 := by omega
    have h3 : ¬ timeout < 3 := by omega
    simp [wait_for_completion, stream_loop, finalize, hb1, hb2, hb3, h0, h1, h2, h3]

/-- C6: whenever the elapsed time at a loop head exceeds the timeout
budget, both the streaming phase and the polling fallback raise the
dedicated timeout failure; a timeout of the streaming phase propagates
out of `wait_for_completion` unchanged (it is never swallowed into the
polling fallback); and the fallback runs only when the streaming phase
ended in a hard connection error. -/
theorem C6_timeout_handling (b : Backend) (stream : Nat → Option StreamMsg)
    (timeout pollInterval fuel : Nat) :
    (∀ f elapsed lastCheck, timeout < elapsed →
      stream_loop b stream timeout pollInterval (f + 1) elapsed lastCheck =
        .timedOut elapsed) ∧
    (∀ f elapsed, timeout < elapsed →
      poll_loop b timeout pollInterval (f + 1) elapsed = .timedOut elapsed) ∧
    (∀ elapsed,
      stream_loop b stream timeout pollInterval fuel 0 0 = .timedOut elapsed →
      wait_for_completion b stream timeout pollInterval fuel = .timedOut elapsed) ∧
    (∀ r, stream_loop b stream timeout pollInterval fuel 0 0 = r →
      (∀ elapsed, r ≠ .connError elapsed) →
      wait_for_completion b stream timeout pollInterval fuel = finalize b r) := by
  refine ⟨?_, ?_, ?_, ?_⟩
  · intro f elapsed lastCheck h
    rw [stream_loop]
    simp [h]
  · intro f elapsed h
    rw [poll_loop]
    simp [h]
  · intro elapsed h
    unfold wait_for_completion
    rw [h]
    rfl
  · intro r hr hnc
    unfold wait_for_completion
    rw [hr]
    cases r with
    | connError e => exact absurd rfl (hnc e)
    | _ => rfl

/-- The backend of the C5/C6 witnesses: prompt finished, record present
with outputs, no error; still listed in the queue to exercise the
in-queue history check. -/
def w_backend : Backend :=
  { inQueue := true, histPresent := true, histOutputs := true,
    histCompleted := false, histError := false }

/-- A backend with no history record, used to drive the witness runs
into the timeout. -/
def w_backend_empty : Backend :=
  { inQueue := true, histPresent := false, histOutputs := false,
    histCompleted := false, histError := false }

/-- C5 (witness): the completion-race theorem at the concrete backend,
with timeout 600 and poll interval 2. -/
theorem C5_completion_race_witness :
    wait_for_completion w_backend (fun _ => none) 600 2 10 = .success 0 ∧
    wait_for_completion w_backend (fun _ => some .progress) 600 2 10 = .success 3 :=
  have h := C5_completion_race w_backend 600 2 10 rfl rfl rfl (by decide)
  ⟨h.1, h.2 (by decide) (by decide)⟩

/-- C6 (witness): the timeout-handling theorem at concrete inputs — a
loop head past the deadline times out in both phases, and a streaming
phase that times out (timeout 1, no events, empty history) propagates
`timedOut` out of `wait_for_completion`. -/
theorem C6_timeout_handling_witness :
    stream_loop w_backend_empty (fun _ => none) 600 2 5 601 0 = .timedOut 601 ∧
    poll_loop w_backend_empty 600 2 5 601 = .timedOut 601 ∧
    wait_for_completion w_backend_empty (fun _ => none) 1 2 5 = .timedOut 2 ∧
    wait_for_completion w_backend (fun _ => none) 600 2 10 =
      finalize w_backend (stream_loop w_backend (fun _ => none) 600 2 10 0 0) :=
  have h := C6_timeout_handling w_backend_empty (fun _ => none) 600 2 5
  have h1 := C6_timeout_handling w_backend_empty (fun _ => none) 1 2 5
  have h2 := C6_timeout_handling w_backend (fun _ => none) 600 2 10
  ⟨h.1 4 601 0 (by decide), h.2.1 4 601 (by decide),
   h1.2.2.1 2 (by decide),
   h2.2.2.2 (stream_loop w_backend (fun _ => none) 600 2 10 0 0) rfl
     (by
       intro elapsed h
       rw [(by decide :
         stream_loop w_backend (fun _ => none) 600 2 10 0 0 = WaitResult.success 0)] at h
       exact WaitResult.noConfusion h)⟩

/-- A `transition` entry of a scene config (video_merger.py). `ttype`
models the `"type"` key (`none` when absent — every read defaults it to
`"cut"`), `duration` the `"duration"` key (read with default 0.5 in the
fold path). -/
structure Transition where
  ttype : Option String
  duration : Option ℚ
deriving Repr, DecidableEq

/-- One entry of the `scene_configs` list passed to `merge_all_scenes`:
a scene video path and an optional transition config. -/
structure SceneConfig where
  video : String
  transition : Option Transition
deriving Repr, DecidableEq

/-- `VideoMerger._is_simple_transition` (lines 338-343): an absent
transition, or one whose (defaulted) type is `cut`/`continuous`, is a
simple concatenation. -/
def is_simple_transition : Option Transition → Bool
  | none => true
  | some t =>
    let ty := t.ttype.getD "cut"
    ty == "cut" || ty == "continuous"

/-- The execution path chosen by `VideoMerger.merge_all_scenes`
(lines 288-336): return `False` on an empty config list; copy the single
video for a singleton list; run one `concatenate` over every scene video
when all boundary transitions are simple; otherwise fold pairwise through
`merge_with_transition` with intermediate scratch files. The ffmpeg side
effects of each path are not modelled — the claim under verification is
about which path runs. -/
inductive MergePlan
  | failNoScenes
  | copySingle (video : String)
  | concatAll (videos : List String)
  | foldTransitions (configs : List SceneConfig)
deriving Repr, DecidableEq

/-- Path selection of `VideoMerger.merge_all_scenes`: mirrors the source
branch for branch (`scene_configs[1:]` is the tail — the first scene has
no incoming transition). -/
def merge_all_scenes : List SceneConfig → MergePlan
  | [] => .failNoScenes
  | [c] => .copySingle c.video
  | c :: c2 :: cs =>
    if (c2 :: cs).all (fun sc => is_simple_transition sc.transition) then
      .concatAll ((c :: c2 :: cs).map (fun sc => sc.video))
    else .foldTransitions (c :: c2 :: cs)

/-- C9: for every scene-config list with at least two entries in which
every boundary transition after the first is absent, `cut` or
`continuous`, `merge_all_scenes` takes the single-pass concatenation path
over all scene videos — never the pairwise `merge_with_transition` fold. -/
theorem C9_transition_short_circuit (configs : List SceneConfig)
    (hlen : 2 ≤ configs.length)
    (hsimple : ∀ sc ∈ configs.tail,
      sc.transition = none ∨
      sc.transition.map (fun t => t.ttype) = some (some "cut") ∨
      sc.transition.map (fun t => t.ttype) = some (some "continuous")) :
    merge_all_scenes configs = .concatAll (configs.map (fun sc => sc.video)) := by
  match configs, hlen with
  | c :: c2 :: cs, _ =>
    have hall : (c2 :: cs).all (fun sc => is_simple_transition sc.transition) = true := by
      rw [List.all_eq_true]
      intro sc hsc
      rcases hsimple sc hsc with h | h | h
      · simp [is_simple_transition, h]
      all_goals
        cases htr : sc.transition with
        | none => rw [htr] at h; simp at h
        | some t =>
          rw [htr] at h
          simp only [Option.map_some', Option.some.injEq] at h
          simp [is_simple_transition, h]
    rw [merge_all_scenes]
    simp [hall]

/-- The scene-config list of the C9 witness, the spec's own example:
three scenes with transitions `[none, cut, continuous]`. -/
def c9_configs : List SceneConfig :=
  [{ video := "scene-01/merged.mp4", transition := none },
   { video := "scene-02/merged.mp4",
     transition := some { ttype := some "cut", duration := none } },
   { video := "scene-03/merged.mp4",
     transition := some { ttype := some "continuous", duration := none } }]

/-- C9 (witness): the short-circuit theorem applied to the three-scene
example. -/
theorem C9_transition_short_circuit_witness :
    merge_all_scenes c9_configs =
      .concatAll ["scene-01/merged.mp4", "scene-02/merged.mp4", "scene-03/merged.mp4"] :=
  C9_transition_short_circuit c9_configs (by decide) (by decide)

/-- The operation dispatched by `VideoMerger.merge_with_transition`
(lines 156-197): a plain concatenation of the listed inputs, a fade
through black, or a cross dissolve. -/
inductive MergeAction
  | concat (videos : List String)
  | fade (a b : String) (duration : ℚ)
  | dissolve (a b : String) (duration : ℚ)
deriving Repr, DecidableEq

/-- Dispatch of `VideoMerger.merge_with_transition` on the transition
kind: `cut`/`continuous` concatenate the two inputs; `fade` and
`dissolve` run their filter pipelines; any other kind prints a warning
and falls back to concatenating the two inputs. -/
def merge_with_transition (video1 video2 : String) (transition : String)
    (duration : ℚ) : MergeAction :=
  if transition == "cut" || transition == "continuous" then .concat [video1, video2]
  else if transition == "fade" then .fade video1 video2 duration
  else if transition == "dissolve" then .dissolve video1 video2 duration
  else .concat [video1, video2]

/-- Interpret a merge action against result oracles for the three
underlying operations (`concatenate`, `_apply_fade_transition`,
`_apply_xfade_transition`), returning the success flag the source
returns. -/
def run_merge_action (concatR : List String → String → Bool)
    (fadeR dissolveR : String → String → String → ℚ → Bool)
    (out : String) : MergeAction → Bool
  | .concat videos => concatR videos out
  | .fade a b d => fadeR a b out d
  | .dissolve a b d => dissolveR a b out d

/-- C10: `merge_with_transition` called with a transition kind outside
`cut`/`continuous`/`fade`/`dissolve` does not fail on the unknown kind —
it degrades to plain concatenation of its two inputs, and its outcome is
exactly the concatenation's outcome. -/
theorem C10_unknown_transition_degrades (video1 video2 transition : String)
    (duration : ℚ)
    (h : transition ∉ (["cut", "continuous", "fade", "dissolve"] : List String)) :
    merge_with_transition video1 video2 transition duration = .concat [video1, video2] ∧
    ∀ (concatR : List String → String → Bool)
      (fadeR dissolveR : String → String → String → ℚ → Bool) (out : String),
      run_merge_action concatR fadeR dissolveR out
          (merge_with_transition video1 video2 transition duration) =
        concatR [video1, video2] out := by
  simp only [List.mem_cons, List.not_mem_nil, or_false, not_or] at h
  obtain ⟨h1, h2, h3, h4⟩ := h
  have e : merge_with_transition video1 video2 transition duration =
      .concat [video1, video2] := by
    unfold merge_with_transition
    rw [if_neg (by simp [h1, h2]), if_neg (by simp [h3]), if_neg (by simp [h4])]
  exact ⟨e, fun concatR fadeR dissolveR out => by rw [e]; rfl⟩

/-- C10 (witness): the degradation theorem applied to the unknown kind
`wipe` with duration 1/2, interpreted against a constant-result
concatenation oracle. -/
theorem C10_unknown_transition_degrades_witness :
    merge_with_transition "a.mp4" "b.mp4" "wipe" (1 / 2) = .concat ["a.mp4", "b.mp4"] ∧
    run_merge_action (fun _ _ => true) (fun _ _ _ _ => false) (fun _ _ _ _ => false)
        "final.mp4" (merge_with_transition "a.mp4" "b.mp4" "wipe" (1 / 2)) = true :=
  have h := C10_unknown_transition_degrades "a.mp4" "b.mp4" "wipe" (1 / 2) (by decide)
  ⟨h.1, h.2 (fun _ _ => true) (fun _ _ _ _ => false) (fun _ _ _ _ => false) "final.mp4"⟩

end AVP
